import Mathlib

/-!
Shallow embedding of the django-to-jinja template converter
(ext/django2jinja/django2jinja.py): the Writer emitter and the
per-node-type translation handlers, together with proofs about them.

Modelling conventions:
* The output stream is modelled as the String written so far; the error
  stream as the list of lines printed so far (warn prints one line per
  call).  The text encoding applied by write (str.encode) is the identity
  on the text.
* Parse-tree nodes are supplied by the external template framework; the
  translator only reads their public attributes, so they are modelled as a
  closed inductive type with exactly those attributes.
* Filter callables are opaque external objects observed only through the
  name the process-wide resolution cache assigns them (get_filter_name);
  they are modelled by that observation.
-/

namespace D2J

/-- Modelled from the spec: the default delimiter pairs of the target
engine (block, variable, comment) are imported in the source from the
target engine defaults module, which is not part of the translated file.
The spec fixes the defaults: block, variable and comment pairs. -/
def BLOCK_START_STRING : String := "\x7b%"

/-- Modelled from the spec: default block-close delimiter. -/
def BLOCK_END_STRING : String := "%\x7d"

/-- Modelled from the spec: default variable-open delimiter. -/
def VARIABLE_START_STRING : String := "\x7b\x7b"

/-- Modelled from the spec: default variable-close delimiter. -/
def VARIABLE_END_STRING : String := "\x7d\x7d"

/-- Modelled from the spec: default comment-open delimiter. -/
def COMMENT_START_STRING : String := "\x7b#"

/-- Modelled from the spec: default comment-close delimiter. -/
def COMMENT_END_STRING : String := "#\x7d"

/-- Modelled from the spec: the known-safe allow-list of filter names
assumed to exist in the target engine (DEFAULT_FILTERS, imported from the
target engine defaults module, which is not part of the translated file).
The spec does not enumerate its contents; the theorems below depend only
on membership of a given name, which they state explicitly, so it is
modelled as a representative set of builtin target-engine filter names. -/
def DEFAULT_FILTERS : List String :=
  ["abs", "capitalize", "center", "default", "e", "escape", "first",
   "join", "last", "length", "lower", "replace", "reverse", "round",
   "safe", "sort", "trim", "upper", "wordcount"]

/-- A literal value carried by a parsed Variable (node.literal): in the
source these are the parsed unicode string or numeric constants.  Only
these two shapes are observed by the translator. -/
inductive PyLiteral where
  | uStr (s : String)
  | num (i : Int)
deriving DecidableEq

/-- Python repr of the literal values in scope: a unicode string renders
with the u prefix and single quotes (string escaping does not arise for
the template literals the claims exercise), a number renders as its
decimal text. -/
def pyRepr : PyLiteral → String
  | .uStr s => "u\x27" ++ s ++ "\x27"
  | .num i => toString i

/-- A parsed Variable node: raw dotted name and, when the token was a
constant, its parsed literal value (node.var and node.literal). -/
structure Variable where
  var : String
  literal : Option PyLiteral
deriving DecidableEq

/-- A filter callable, observed only through the name the process-wide
resolution cache assigns it: get_filter_name scans the external filter
libraries and yields the name, or none when the callable is registered in
no library.  That observation is the field below. -/
structure FilterFunc where
  resolved : Option String
deriving DecidableEq

/-- One positional filter argument: the source stores pairs (is_var,
value) where value is a sub-node when is_var and a constant otherwise. -/
inductive FilterArg where
  | varArg (value : Variable)
  | litArg (value : PyLiteral)
deriving DecidableEq

/-- A FilterExpression: a base variable plus the filter chain, each filter
with its argument list. -/
structure FilterExpr where
  var : Variable
  filters : List (FilterFunc × List FilterArg)
deriving DecidableEq

/-- The origin half of a debug node source attribute: either the origin
itself exposes the template text (origin.source) or the text is fetched
through its loader together with the load name. -/
inductive Origin where
  | withSource (text : String)
  | fromLoader (loadname : String) (text : String)
deriving DecidableEq

/-- The source attribute of a debug-mode node: (origin, position), with
position a pair of character offsets into the template text. -/
structure NodeSource where
  origin : Origin
  position : Nat × Nat
deriving DecidableEq

/-- The number of line breaks the source counts in a prefix of the
template text: the newline regex matches CR LF as one break, and lone CR
or LF as one break each. -/
def countTemplateNewlines : List Char → Nat
  | [] => 0
  | '\r' :: '\n' :: rest => 1 + countTemplateNewlines rest
  | '\r' :: rest => 1 + countTemplateNewlines rest
  | '\n' :: rest => 1 + countTemplateNewlines rest
  | _ :: rest => countTemplateNewlines rest

/-- Python lstrip on a character list: drop leading whitespace. -/
def pyLstripList : List Char → List Char
  | [] => []
  | c :: rest => if c.isWhitespace then pyLstripList rest else c :: rest

/-- Python lstrip: remove leading whitespace characters. -/
def pyLstrip (s : String) : String := String.mk (pyLstripList s.data)

/-- Python rstrip: remove trailing whitespace characters. -/
def pyRstrip (s : String) : String :=
  String.mk (pyLstripList s.data.reverse).reverse

/-- Truthiness of the external class attribute IfNode.LinkTypes.or_ of
the source framework: it is a nonzero constant (a one-element tuple in
the framework version this tool targets), hence truthy; the translated
line evaluates exactly this truthiness. -/
def LinkTypes_or_truthy : Bool := true

/-- The connective the if handler joins conditions with: the source
computes it from the truthiness of the class attribute LinkTypes.or_
(not from the link type of the node at hand). -/
def join_with : String := if LinkTypes_or_truthy then "or" else "and"

/-- The link type a parsed if node carries (node.link_type). -/
inductive LinkType where
  | and_
  | or_
deriving DecidableEq

/-- A python runtime type: its identity and the identity of its base
class, when any.  Dispatch in the source compares types with the
identity test (type(node) is cls). -/
structure PyType where
  id : Nat
  parent : Option Nat
deriving DecidableEq

/-- The identity test the dispatch loop uses: exact type identity,
ignoring inheritance. -/
def typeIs (t cls : PyType) : Bool := t.id == cls.id

/-- The dispatch scan of the handler table: the first registered type
whose entry the identity test accepts, or none. -/
def findHandler (registry : List PyType) (t : PyType) : Option PyType :=
  registry.find? (fun cls => typeIs t cls)

/-- The Writer state: the two streams, the six delimiters, the three
context flags, the loop-depth counter and the per-instance set of filter
names already warned about.  minDepth is specification-only
instrumentation: it records the minimum value the loop-depth counter has
attained (it is updated exactly where the counter is) and exists solely
to state the non-negativity invariant; no translation step reads it. -/
structure Writer where
  stream : String
  error_stream : List String
  block_start_string : String
  block_end_string : String
  variable_start_string : String
  variable_end_string : String
  comment_start_string : String
  comment_end_string : String
  autoescape : Bool
  spaceless : Bool
  use_jinja_autoescape : Bool
  _loop_depth : Int
  minDepth : Int
  _filters_warned : List String
deriving DecidableEq

/-- A Writer constructed with all constructor defaults: empty streams,
the default delimiters, initial_autoescape true, use_jinja_autoescape
false, loop depth zero. -/
def writer0 : Writer :=
  { stream := ""
    error_stream := []
    block_start_string := BLOCK_START_STRING
    block_end_string := BLOCK_END_STRING
    variable_start_string := VARIABLE_START_STRING
    variable_end_string := VARIABLE_END_STRING
    comment_start_string := COMMENT_START_STRING
    comment_end_string := COMMENT_END_STRING
    autoescape := true
    spaceless := false
    use_jinja_autoescape := false
    _loop_depth := 0
    minDepth := 0
    _filters_warned := [] }

/-- enter_loop: increment the loop depth (minDepth instrumentation
records the new value when it is a new minimum). -/
def Writer.enter_loop (w : Writer) : Writer :=
  { w with _loop_depth := w._loop_depth + 1
           minDepth := min w.minDepth (w._loop_depth + 1) }

/-- leave_loop: reverse of enter_loop. -/
def Writer.leave_loop (w : Writer) : Writer :=
  { w with _loop_depth := w._loop_depth - 1
           minDepth := min w.minDepth (w._loop_depth - 1) }

/-- in_loop: true when the loop depth is positive. -/
def Writer.in_loop (w : Writer) : Bool := decide (0 < w._loop_depth)

/-- write: append text to the output stream (the encoding step is the
identity on the text). -/
def Writer.write (w : Writer) (s : String) : Writer :=
  { w with stream := w.stream ++ s }

/-- _post_open: the padding written after an opening delimiter. -/
def Writer._post_open (w : Writer) : Writer :=
  if w.spaceless then w.write "- " else w.write " "

/-- _pre_close: the padding written before a closing delimiter. -/
def Writer._pre_close (w : Writer) : Writer :=
  if w.spaceless then w.write " -" else w.write " "

/-- start_variable: opening variable delimiter plus padding. -/
def Writer.start_variable (w : Writer) : Writer :=
  (w.write w.variable_start_string)._post_open

/-- end_variable: the escape-filter marker when not always_safe, the
autoescape flag is on and target-native autoescaping is off; then the
padding and the closing variable delimiter. -/
def Writer.end_variable (w : Writer) (always_safe : Bool) : Writer :=
  let w := if !always_safe && w.autoescape && !w.use_jinja_autoescape
    then w.write "|e" else w
  (w._pre_close).write w.variable_end_string

/-- start_block: opening block delimiter plus padding. -/
def Writer.start_block (w : Writer) : Writer :=
  (w.write w.block_start_string)._post_open

/-- end_block: padding plus closing block delimiter. -/
def Writer.end_block (w : Writer) : Writer :=
  (w._pre_close).write w.block_end_string

/-- tag: a complete simple block tag. -/
def Writer.tag (w : Writer) (name : String) : Writer :=
  ((w.start_block).write name).end_block

/-- print_expr: a complete variable tag around raw text (end_variable is
called with its default, always_safe false). -/
def Writer.print_expr (w : Writer) (expr : String) : Writer :=
  ((w.start_variable).write expr).end_variable false

/-- get_location: the diagnostic name and line number for an origin and
position pair; the line number counts the line breaks preceding the
first position offset, plus one. -/
def Writer.get_location (origin : Origin) (position : Nat × Nat) :
    String × Nat :=
  match origin with
  | .withSource text =>
      ("<unknown source>",
       countTemplateNewlines (text.data.take position.1) + 1)
  | .fromLoader loadname text =>
      (loadname, countTemplateNewlines (text.data.take position.1) + 1)

/-- The single line warn prints for a message and an optional node
source: with a source the message is prefixed by the bracketed file name
and line number. -/
def warnLine (source : Option NodeSource) (message : String) : String :=
  match source with
  | some ns =>
      let fl := Writer.get_location ns.origin ns.position
      "[" ++ fl.1 ++ ":" ++ toString fl.2 ++ "] " ++ message
  | none => message

/-- warn: print one line to the error stream; a node that carries a
source attribute contributes the location prefix. -/
def Writer.warn (w : Writer) (message : String)
    (node : Option NodeSource) : Writer :=
  { w with error_stream := w.error_stream ++ [warnLine node message] }

/-- Python str.startswith: character-wise prefix test. -/
def pyStartswith (s pre : String) : Bool := pre.data.isPrefixOf s.data

/-- translate_variable_name: the variable-name translation, exactly as
the source condition reads with python operator precedence, i.e.
(in_loop and the name equals the loop-metadata name) or (the name starts
with the dotted loop-metadata prefix). -/
def Writer.translate_variable_name (w : Writer) (var : String) : String :=
  if (w.in_loop && var == "forloop") || pyStartswith var "forloop." then
    var.drop 3
  else var

/-- variable: write an identifier after variable-name translation. -/
def Writer.variable (w : Writer) (name : String) : Writer :=
  w.write (w.translate_variable_name name)

/-- literal: write the repr of the value, with the unicode string-literal
prefix removed. -/
def Writer.literal (w : Writer) (value : PyLiteral) : Writer :=
  let v := pyRepr value
  let v := if v.take 2 == "u\x22" || v.take 2 == "u\x27"
    then v.drop 1 else v
  w.write v

/-- get_filter_name: the textual name of a filter callable, or none (the
scan of the external filter libraries is the observation the FilterFunc
model carries). -/
def get_filter_name (f : FilterFunc) : Option String := f.resolved

/-- The Variable handler (source handler name: variable): a literal-valued
variable renders as a literal, any other as a translated identifier. -/
def variable_handler (w : Writer) (node : Variable) : Writer :=
  match node.literal with
  | some lit => w.literal lit
  | none => w.variable node.var

/-- The inner loop of the filter-argument rendering: arguments separated
by comma-space; a sub-node argument goes through node dispatch (which
lands in the Variable handler), a constant through literal. -/
def Writer.writeArgList : Writer → Bool → List FilterArg → Writer
  | w, _, [] => w
  | w, first, a :: rest =>
      let w := if first then w else w.write ", "
      let w := match a with
        | .varArg v => variable_handler w v
        | .litArg l => w.literal l
      Writer.writeArgList w false rest

/-- The argument block of one filter: parenthesised argument list when
the filter has arguments, nothing otherwise. -/
def Writer.writeFilterArgs (w : Writer) (args : List FilterArg) : Writer :=
  match args with
  | [] => w
  | _ => ((w.write "(").writeArgList true args).write ")"

/-- The loop of Writer.filters, carrying the want_pipe flag across
iterations: an unresolvable filter warns (the formatted message
interpolates the resolved name, which is None in that branch) and is
skipped; a resolved name missing from the allow-list and the per-writer
warned set is recorded there and warned about once; the name itself is
always written, preceded by a pipe unless suppressed for the first
filter of a block-form chain. -/
def Writer.filtersGo : Writer → Bool → List (FilterFunc × List FilterArg) → Writer
  | w, _, [] => w
  | w, want_pipe, (f, args) :: rest =>
    match get_filter_name f with
    | none =>
        Writer.filtersGo (w.warn "Could not find filter None" none)
          want_pipe rest
    | some name =>
        let w := if name ∉ DEFAULT_FILTERS ∧ name ∉ w._filters_warned
          then ({ w with _filters_warned := w._filters_warned ++ [name] }).warn
                 ("Filter " ++ name ++ " probably doesn\x27t exist in Jinja")
                 none
          else w
        let w := if want_pipe then w.write "|" else w
        let w := w.write name
        let w := w.writeFilterArgs args
        Writer.filtersGo w true rest

/-- filters: dump a list of filters; in block form the first pipe is
suppressed. -/
def Writer.filters (w : Writer) (fs : List (FilterFunc × List FilterArg))
    (is_block : Bool) : Writer :=
  Writer.filtersGo w (!is_block) fs

/-- The FilterExpression handler: the base variable then the filter
chain (non-block form). -/
def filter_expression (w : Writer) (node : FilterExpr) : Writer :=
  (variable_handler w node.var).filters node.filters false

/-- The loop-variable list of a for tag: identifiers separated by
comma-space, each through variable-name translation. -/
def Writer.writeLoopVars : Writer → Bool → List String → Writer
  | w, _, [] => w
  | w, first, v :: rest =>
      let w := if first then w else w.write ", "
      Writer.writeLoopVars (w.variable v) false rest

/-- The argument loop of the cycle handler: raw cycle variables in
order, separated by comma-space, each through node dispatch (which lands
in the Variable handler). -/
def Writer.writeCycleVars : Writer → Bool → List Variable → Writer
  | w, _, [] => w
  | w, first, v :: rest =>
      let w := if first then w else w.write ", "
      Writer.writeCycleVars (variable_handler w v) false rest

/-- The condition loop of the if handler: sub-expressions separated by
the join connective, a negated sub-expression preceded by the word not,
each sub-expression through node dispatch (which lands in the
FilterExpression handler). -/
def Writer.writeBoolExprs : Writer → Bool → List (Bool × FilterExpr) → Writer
  | w, _, [] => w
  | w, first, (ifnot, expr) :: rest =>
      let w := if first then w else w.write (" " ++ join_with ++ " ")
      let w := if ifnot then w.write "not " else w
      Writer.writeBoolExprs (filter_expression w expr) false rest

/-- A parsed cycle node: the raw (pre-resolution) cycle variables, the
optional bound variable name, and the optional debug source. -/
structure CycleNode where
  raw_cycle_vars : List Variable
  variable_name : Option String
  source : Option NodeSource

/-- The cycle handler: outside a loop it warns and emits nothing; inside
a loop it emits the loop.cycle call over the raw cycle variables in
order, wrapped in a set block when the node binds a name and in variable
delimiters otherwise. -/
def cycle (w : Writer) (node : CycleNode) : Writer :=
  if !w.in_loop then
    w.warn "Untranslatable free cycle (cycle outside loop)" node.source
  else
    let w := match node.variable_name with
      | some v => (w.start_block).write ("set " ++ v ++ " = ")
      | none => w.start_variable
    let w := w.write "loop.cycle("
    let w := w.writeCycleVars true node.raw_cycle_vars
    let w := w.write ")"
    match node.variable_name with
    | some _ => w.end_block
    | none => w.end_variable false

/-- A parsed width-ratio node: the two filter expressions, the maximal
width (already an integer here: the source renders str(int(max_width)))
and the optional debug source. -/
structure WidthRatioNode where
  val_expr : FilterExpr
  max_expr : FilterExpr
  max_width : Int
  source : Option NodeSource

/-- The width-ratio handler: a warning, then the expanded arithmetic
formula in variable delimiters, closed with always_safe set. -/
def width_ratio (w : Writer) (node : WidthRatioNode) : Writer :=
  let w := w.warn
    ("widthratio expanded into formula.  You may want to provide a helper function for this calculation")
    node.source
  let w := w.start_variable
  let w := w.write "("
  let w := filter_expression w node.val_expr
  let w := w.write " / "
  let w := filter_expression w node.max_expr
  let w := w.write " * "
  let w := w.write (toString node.max_width)
  let w := w.write ")|round|int"
  w.end_variable true

/-- The parse-tree nodes the translator handles, as a closed type: one
constructor per registered node type, plus one constructor standing for
any node whose exact runtime type has no registered handler (in
particular a subclass of a registered type), carrying the attributes the
fallback warning reads. -/
inductive Node where
  | text (s : String)
  | var (v : Variable)
  | variableNode (filter_expression : FilterExpr) (source : Option NodeSource)
  | filterExpressionNode (fe : FilterExpr)
  | commentNode
  | forNode (loopvars : List String) (sequence : FilterExpr)
      (is_reversed : Bool) (nodelist_loop : List Node)
  | ifNode (link_type : LinkType) (bool_exprs : List (Bool × FilterExpr))
      (nodelist_true : List Node) (nodelist_false : List Node)
  | cycleNode (c : CycleNode)
  | spacelessNode (nodelist : List Node) (source : Option NodeSource)
  | autoescapeNode (setting : Bool) (nodelist : List Node)
  | widthRatioNode (d : WidthRatioNode)
  | unknown (moduleName : String) (className : String)
      (source : Option NodeSource)

/-- The first replacement step of the spaceless handler: when the first
child is a text node it is replaced by a fresh text node holding the
left-stripped text. -/
def lstripFirst : List Node → List Node
  | Node.text s :: rest => Node.text (pyLstrip s) :: rest
  | ns => ns

/-- The second replacement step of the spaceless handler: when the last
child is a text node it is replaced by a fresh text node holding the
right-stripped text. -/
def rstripLast : List Node → List Node
  | [] => []
  | [Node.text s] => [Node.text (pyRstrip s)]
  | n :: rest => n :: rstripLast rest

/-- The initial stripping of the spaceless handler: first-child left
strip, then last-child right strip (on a one-element list of text both
apply to the same node, as in the source). -/
def stripInitial (ns : List Node) : List Node := rstripLast (lstripFirst ns)

mutual

/-- Structural measure of a node used for the termination of the
translation: text content does not count, so the spaceless replacement
leaves preserve it. -/
def msize : Node → Nat
  | .forNode _ _ _ body => 1 + msizeL body
  | .ifNode _ _ t f => 1 + msizeL t + msizeL f
  | .spacelessNode ns _ => 1 + msizeL ns
  | .autoescapeNode _ ns => 1 + msizeL ns
  | _ => 1

/-- Structural measure of a node list. -/
def msizeL : List Node → Nat
  | [] => 0
  | n :: rest => 1 + msize n + msizeL rest

end

mutual

/-- Writer.node: dispatch a node to its handler; the translation of the
registered node kinds, and the fallback warning for a node of an
unregistered exact runtime type (the function is total: the fallback
never raises). -/
def Writer.node (w : Writer) (n : Node) : Writer :=
  match n with
  | .text s => w.write s
  | .var v => variable_handler w v
  | .variableNode fe _src =>
      let w := w.start_variable
      let w := if fe.var.var == "block.super" && fe.filters.isEmpty
        then w.write "super()" else filter_expression w fe
      w.end_variable false
  | .filterExpressionNode fe => filter_expression w fe
  | .commentNode => w
  | .forNode loopvars sequence is_rev nodelist_loop =>
      let w := w.start_block
      let w := w.write "for "
      let w := w.writeLoopVars true loopvars
      let w := w.write " in "
      let w := if is_rev then w.write "(" else w
      let w := filter_expression w sequence
      let w := if is_rev then w.write ")|reverse" else w
      let w := w.end_block
      let w := w.enter_loop
      let w := Writer.body w nodelist_loop
      let w := w.leave_loop
      w.tag "endfor"
  | .ifNode _lt bool_exprs nodelist_true nodelist_false =>
      let w := w.start_block
      let w := w.write "if "
      let w := w.writeBoolExprs true bool_exprs
      let w := w.end_block
      let w := Writer.body w nodelist_true
      let w := if nodelist_false.isEmpty then w
        else Writer.body (w.tag "else") nodelist_false
      w.tag "endif"
  | .cycleNode c => cycle w c
  | .spacelessNode ns src =>
      let original := w.spaceless
      let w := { w with spaceless := true }
      let w := w.warn "entering spaceless mode with different semantics" src
      let w := Writer.body w (stripInitial ns)
      { w with spaceless := original }
  | .autoescapeNode setting ns =>
      let original := w.autoescape
      let w := { w with autoescape := setting }
      let w := Writer.body w ns
      { w with autoescape := original }
  | .widthRatioNode d => width_ratio w d
  | .unknown moduleName className src =>
      w.warn ("Untranslatable node " ++ moduleName ++ "." ++ className
        ++ " found") src
termination_by msize n
decreasing_by
  all_goals
    ( have h2 : ∀ ms : List Node, msizeL (lstripFirst ms) = msizeL ms := by
        intro ms
        cases ms with
        | nil => rfl
        | cons n rest => cases n <;> simp [lstripFirst, msizeL, msize]
      have h1 : ∀ ms : List Node, msizeL (rstripLast ms) = msizeL ms := by
        intro ms
        induction ms with
        | nil => rfl
        | cons n rest ih =>
            cases rest with
            | nil => cases n <;> simp [rstripLast, msizeL, msize]
            | cons m r => simp only [rstripLast, msizeL, ih]
      simp only [stripInitial, h1, h2, msize, msizeL]
      omega )

/-- Writer.body: dispatch every node of the list, in order. -/
def Writer.body (w : Writer) (ns : List Node) : Writer :=
  match ns with
  | [] => w
  | n :: rest => Writer.body (Writer.node w n) rest
termination_by msizeL ns
decreasing_by
  all_goals simp [msize, msizeL]
  all_goals omega

end

/-- The padding written by _post_open, as a function of the spaceless
flag. -/
def postPad (spaceless : Bool) : String := if spaceless then "- " else " "

/-- The padding written by _pre_close, as a function of the spaceless
flag. -/
def prePad (spaceless : Bool) : String := if spaceless then " -" else " "

/-- The escape-filter marker end_variable contributes, as a function of
the three booleans that govern it. -/
def escMarker (always_safe autoescape use_jinja : Bool) : String :=
  if !always_safe && autoescape && !use_jinja then "|e" else ""

/-- The text literal writes: the repr with the unicode prefix removed. -/
def renderLiteral (value : PyLiteral) : String :=
  let v := pyRepr value
  if v.take 2 == "u\x22" || v.take 2 == "u\x27" then v.drop 1 else v

/-- The variable-name translation as a function of the in-loop flag. -/
def translate_name_at (inloop : Bool) (var : String) : String :=
  if (inloop && var == "forloop") || pyStartswith var "forloop." then
    var.drop 3
  else var

/-- The text the Variable handler writes, as a function of the in-loop
flag. -/
def renderVariable (inloop : Bool) (v : Variable) : String :=
  match v.literal with
  | some l => renderLiteral l
  | none => translate_name_at inloop v.var

/-- The text one filter argument contributes. -/
def renderArg (inloop : Bool) : FilterArg → String
  | .varArg v => renderVariable inloop v
  | .litArg l => renderLiteral l

/-- The text of a comma-separated filter-argument list. -/
def renderArgList (inloop : Bool) : Bool → List FilterArg → String
  | _, [] => ""
  | first, a :: rest =>
      (if first then "" else ", ") ++ renderArg inloop a
        ++ renderArgList inloop false rest

/-- The text of one filter argument block (parenthesised when any
arguments exist). -/
def renderFilterArgs (inloop : Bool) (args : List FilterArg) : String :=
  match args with
  | [] => ""
  | _ => "(" ++ renderArgList inloop true args ++ ")"

/-- The text the filter loop contributes to the output stream: an
unresolvable filter contributes nothing, a resolved one its pipe (when
due), name and arguments, in order. -/
def renderFiltersGo (inloop : Bool) : Bool → List (FilterFunc × List FilterArg) → String
  | _, [] => ""
  | p, (f, args) :: rest =>
      match get_filter_name f with
      | none => renderFiltersGo inloop p rest
      | some name =>
          (if p then "|" else "") ++ name ++ renderFilterArgs inloop args
            ++ renderFiltersGo inloop true rest

/-- The text a complete filter expression contributes to the output
stream: base variable then filter chain. -/
def renderFE (inloop : Bool) (fe : FilterExpr) : String :=
  renderVariable inloop fe.var ++ renderFiltersGo inloop true fe.filters

/-- The comma-separated rendering of the cycle arguments, in the order of
the raw cycle variable list. -/
def joinComma (inloop : Bool) : Bool → List Variable → String
  | _, [] => ""
  | true, v :: rest => renderVariable inloop v ++ joinComma inloop false rest
  | false, v :: rest =>
      ", " ++ renderVariable inloop v ++ joinComma inloop false rest

/-- The text the cycle handler writes before the loop.cycle call, as a
function of the writer configuration and the optional bound name. -/
def cycleOpen (w : Writer) (c : CycleNode) : String :=
  match c.variable_name with
  | some v => w.block_start_string ++ postPad w.spaceless ++ "set " ++ v ++ " = "
  | none => w.variable_start_string ++ postPad w.spaceless

/-- The text the cycle handler writes after the loop.cycle call: the set
block closes as a block, the expression form as a variable with the
end_variable escape-marker rule (always_safe not set). -/
def cycleClose (w : Writer) (c : CycleNode) : String :=
  match c.variable_name with
  | some _ => prePad w.spaceless ++ w.block_end_string
  | none =>
      escMarker false w.autoescape w.use_jinja_autoescape
        ++ prePad w.spaceless ++ w.variable_end_string

/-- The one-shot replacement the spaceless handler applies to a first
text child. -/
def lstripNode : Node → Node
  | Node.text s => Node.text (pyLstrip s)
  | n => n

/-- The one-shot replacement the spaceless handler applies to a last
text child. -/
def rstripNode : Node → Node
  | Node.text s => Node.text (pyRstrip s)
  | n => n

/-- The once-per-name warning the filter loop emits for a name missing
from the allow-list. -/
def probablyMsg (name : String) : String :=
  "Filter " ++ name ++ " probably doesn\x27t exist in Jinja"

/-- N-fold repetition of a piece of text. -/
def repeatStr : Nat → String → String
  | 0, _ => ""
  | n + 1, s => s ++ repeatStr n s

/-- One call to Writer.filters referencing a single filter with no
arguments (expression form). -/
def callFilter (f : FilterFunc) (w : Writer) : Writer :=
  w.filters [(f, [])] false

/-- N successive calls to Writer.filters, each referencing the same
filter. -/
def applyCalls (f : FilterFunc) : Nat → Writer → Writer
  | 0, w => w
  | n + 1, w => applyCalls f n (callFilter f w)

/-- A writer with the two escaping flags replaced. -/
def setFlags (w : Writer) (a b : Bool) : Writer :=
  { w with autoescape := a, use_jinja_autoescape := b }

/-- The comma-separated rendering of the loop-variable list of a for
tag. -/
def joinLoopVars (inloop : Bool) : Bool → List String → String
  | _, [] => ""
  | first, v :: rest =>
      (if first then "" else ", ") ++ translate_name_at inloop v
        ++ joinLoopVars inloop false rest

/-- The configuration a node handler leaves untouched overall: loop
depth, the three context flags and the four tag delimiters (the two
streams, the warned set and the minDepth instrumentation may change). -/
def coreKept (w v : Writer) : Prop :=
  v._loop_depth = w._loop_depth
  ∧ v.spaceless = w.spaceless
  ∧ v.autoescape = w.autoescape
  ∧ v.use_jinja_autoescape = w.use_jinja_autoescape
  ∧ v.block_start_string = w.block_start_string
  ∧ v.block_end_string = w.block_end_string
  ∧ v.variable_start_string = w.variable_start_string
  ∧ v.variable_end_string = w.variable_end_string

/-- The translation invariant from writer state w to writer state v:
configuration restored, error stream only extended, and the minimum
loop depth attained bounded below by the incoming minimum and depth. -/
def nodeInv (w v : Writer) : Prop :=
  coreKept w v
  ∧ w.error_stream <+: v.error_stream
  ∧ min w.minDepth w._loop_depth ≤ v.minDepth

/-- The full text the width-ratio handler emits: opening variable
delimiter, padding, the expanded formula, the rounding filters, padding
and the closing delimiter, with no escape marker in between. -/
def widthRatioText (w : Writer) (n : WidthRatioNode) : String :=
  w.variable_start_string ++ postPad w.spaceless ++ "("
    ++ renderFE w.in_loop n.val_expr ++ " / " ++ renderFE w.in_loop n.max_expr
    ++ " * " ++ toString n.max_width ++ ")|round|int"
    ++ prePad w.spaceless ++ w.variable_end_string

theorem write_write (w : Writer) (a b : String) :
    (w.write a).write b = w.write (a ++ b) := by
  simp [Writer.write, String.append_assoc]

theorem write_empty (w : Writer) : w.write "" = w := by
  simp [Writer.write]

@[simp] theorem write_stream (w : Writer) (s : String) :
    (w.write s).stream = w.stream ++ s := rfl

@[simp] theorem write_error_stream (w : Writer) (s : String) :
    (w.write s).error_stream = w.error_stream := rfl

@[simp] theorem write_in_loop (w : Writer) (s : String) :
    (w.write s).in_loop = w.in_loop := rfl

@[simp] theorem write_spaceless (w : Writer) (s : String) :
    (w.write s).spaceless = w.spaceless := rfl

@[simp] theorem write_autoescape (w : Writer) (s : String) :
    (w.write s).autoescape = w.autoescape := rfl

@[simp] theorem write_use_jinja (w : Writer) (s : String) :
    (w.write s).use_jinja_autoescape = w.use_jinja_autoescape := rfl

@[simp] theorem write_loop_depth (w : Writer) (s : String) :
    (w.write s)._loop_depth = w._loop_depth := rfl

@[simp] theorem write_minDepth (w : Writer) (s : String) :
    (w.write s).minDepth = w.minDepth := rfl

@[simp] theorem write_filters_warned (w : Writer) (s : String) :
    (w.write s)._filters_warned = w._filters_warned := rfl

@[simp] theorem write_vstart (w : Writer) (s : String) :
    (w.write s).variable_start_string = w.variable_start_string := rfl

@[simp] theorem write_vend (w : Writer) (s : String) :
    (w.write s).variable_end_string = w.variable_end_string := rfl

@[simp] theorem write_bstart (w : Writer) (s : String) :
    (w.write s).block_start_string = w.block_start_string := rfl

@[simp] theorem write_bend (w : Writer) (s : String) :
    (w.write s).block_end_string = w.block_end_string := rfl

@[simp] theorem warn_stream (w : Writer) (m : String) (nd : Option NodeSource) :
    (w.warn m nd).stream = w.stream := rfl

@[simp] theorem warn_error_stream (w : Writer) (m : String) (nd : Option NodeSource) :
    (w.warn m nd).error_stream = w.error_stream ++ [warnLine nd m] := rfl

@[simp] theorem warn_in_loop (w : Writer) (m : String) (nd : Option NodeSource) :
    (w.warn m nd).in_loop = w.in_loop := rfl

@[simp] theorem warn_spaceless (w : Writer) (m : String) (nd : Option NodeSource) :
    (w.warn m nd).spaceless = w.spaceless := rfl

@[simp] theorem warn_autoescape (w : Writer) (m : String) (nd : Option NodeSource) :
    (w.warn m nd).autoescape = w.autoescape := rfl

@[simp] theorem warn_use_jinja (w : Writer) (m : String) (nd : Option NodeSource) :
    (w.warn m nd).use_jinja_autoescape = w.use_jinja_autoescape := rfl

@[simp] theorem warn_loop_depth (w : Writer) (m : String) (nd : Option NodeSource) :
    (w.warn m nd)._loop_depth = w._loop_depth := rfl

@[simp] theorem warn_minDepth (w : Writer) (m : String) (nd : Option NodeSource) :
    (w.warn m nd).minDepth = w.minDepth := rfl

@[simp] theorem warn_filters_warned (w : Writer) (m : String) (nd : Option NodeSource) :
    (w.warn m nd)._filters_warned = w._filters_warned := rfl

@[simp] theorem warn_vstart (w : Writer) (m : String) (nd : Option NodeSource) :
    (w.warn m nd).variable_start_string = w.variable_start_string := rfl

@[simp] theorem warn_vend (w : Writer) (m : String) (nd : Option NodeSource) :
    (w.warn m nd).variable_end_string = w.variable_end_string := rfl

@[simp] theorem warn_bstart (w : Writer) (m : String) (nd : Option NodeSource) :
    (w.warn m nd).block_start_string = w.block_start_string := rfl

@[simp] theorem warn_bend (w : Writer) (m : String) (nd : Option NodeSource) :
    (w.warn m nd).block_end_string = w.block_end_string := rfl

theorem post_open_eq (w : Writer) :
    w._post_open = w.write (postPad w.spaceless) := by
  cases h : w.spaceless <;> simp [Writer._post_open, postPad, h]

theorem pre_close_eq (w : Writer) :
    w._pre_close = w.write (prePad w.spaceless) := by
  cases h : w.spaceless <;> simp [Writer._pre_close, prePad, h]

theorem start_variable_eq (w : Writer) :
    w.start_variable = w.write (w.variable_start_string ++ postPad w.spaceless) := by
  simp [Writer.start_variable, post_open_eq, write_write]

theorem start_block_eq (w : Writer) :
    w.start_block = w.write (w.block_start_string ++ postPad w.spaceless) := by
  simp [Writer.start_block, post_open_eq, write_write]

theorem end_block_eq (w : Writer) :
    w.end_block = w.write (prePad w.spaceless ++ w.block_end_string) := by
  simp [Writer.end_block, pre_close_eq, write_write]

theorem end_variable_eq (w : Writer) (safe : Bool) :
    w.end_variable safe
      = w.write (escMarker safe w.autoescape w.use_jinja_autoescape
          ++ prePad w.spaceless ++ w.variable_end_string) := by
  cases safe <;> cases h1 : w.autoescape <;> cases h2 : w.use_jinja_autoescape <;>
    simp [Writer.end_variable, escMarker, h1, h2, pre_close_eq, write_write,
      String.append_assoc]

theorem tag_eq (w : Writer) (name : String) :
    w.tag name
      = w.write (w.block_start_string ++ postPad w.spaceless ++ name
          ++ prePad w.spaceless ++ w.block_end_string) := by
  simp [Writer.tag, start_block_eq, end_block_eq, write_write,
    String.append_assoc]

theorem literal_eq (w : Writer) (l : PyLiteral) :
    w.literal l = w.write (renderLiteral l) := rfl

theorem translate_eq (w : Writer) (var : String) :
    w.translate_variable_name var = translate_name_at w.in_loop var := rfl

theorem variable_handler_eq (w : Writer) (v : Variable) :
    variable_handler w v = w.write (renderVariable w.in_loop v) := by
  cases h : v.literal <;>
    simp [variable_handler, renderVariable, h, literal_eq, Writer.variable,
      translate_eq]

theorem writeArgList_eq (args : List FilterArg) :
    ∀ (w : Writer) (first : Bool),
      Writer.writeArgList w first args
        = w.write (renderArgList w.in_loop first args) := by
  induction args with
  | nil => intro w first; simp [Writer.writeArgList, renderArgList, write_empty]
  | cons a rest ih =>
      intro w first
      cases first <;> cases a <;>
        simp [Writer.writeArgList, renderArgList, renderArg, ih,
          variable_handler_eq, literal_eq, write_write, String.append_assoc]

theorem writeFilterArgs_eq (w : Writer) (args : List FilterArg) :
    w.writeFilterArgs args = w.write (renderFilterArgs w.in_loop args) := by
  cases args with
  | nil => simp [Writer.writeFilterArgs, renderFilterArgs, write_empty]
  | cons a rest =>
      simp [Writer.writeFilterArgs, renderFilterArgs, writeArgList_eq,
        write_write, String.append_assoc]

theorem writeCycleVars_eq (vs : List Variable) :
    ∀ (w : Writer) (first : Bool),
      Writer.writeCycleVars w first vs
        = w.write (joinComma w.in_loop first vs) := by
  induction vs with
  | nil => intro w first; simp [Writer.writeCycleVars, joinComma, write_empty]
  | cons v rest ih =>
      intro w first
      cases first <;>
        simp [Writer.writeCycleVars, joinComma, ih, variable_handler_eq,
          write_write, String.append_assoc]

theorem writeLoopVars_eq (vs : List String) :
    ∀ (w : Writer) (first : Bool),
      Writer.writeLoopVars w first vs
        = w.write (joinLoopVars w.in_loop first vs) := by
  induction vs with
  | nil => intro w first; simp [Writer.writeLoopVars, joinLoopVars, write_empty]
  | cons v rest ih =>
      intro w first
      cases first <;>
        simp [Writer.writeLoopVars, joinLoopVars, ih, Writer.variable,
          translate_eq, write_write, String.append_assoc]



theorem filtersGo_stream (fs : List (FilterFunc × List FilterArg)) :
    ∀ (w : Writer) (p : Bool),
      (Writer.filtersGo w p fs).stream
        = w.stream ++ renderFiltersGo w.in_loop p fs := by
  induction fs with
  | nil => intro w p; simp [Writer.filtersGo, renderFiltersGo]
  | cons hd rest ih =>
      obtain ⟨f, args⟩ := hd
      intro w p
      cases hf : get_filter_name f with
      | none => simp [Writer.filtersGo, renderFiltersGo, hf, ih]
      | some name =>
          by_cases hc : name ∉ DEFAULT_FILTERS ∧ name ∉ w._filters_warned <;>
            cases p <;>
              simp [Writer.filtersGo, renderFiltersGo, hf, hc, ih,
                writeFilterArgs_eq, write_write, String.append_assoc,
                Writer.in_loop]

theorem filtersGo_core (fs : List (FilterFunc × List FilterArg)) :
    ∀ (w : Writer) (p : Bool),
      (Writer.filtersGo w p fs)._loop_depth = w._loop_depth
    ∧ (Writer.filtersGo w p fs).minDepth = w.minDepth
    ∧ (Writer.filtersGo w p fs).spaceless = w.spaceless
    ∧ (Writer.filtersGo w p fs).autoescape = w.autoescape
    ∧ (Writer.filtersGo w p fs).use_jinja_autoescape = w.use_jinja_autoescape
    ∧ (Writer.filtersGo w p fs).block_start_string = w.block_start_string
    ∧ (Writer.filtersGo w p fs).block_end_string = w.block_end_string
    ∧ (Writer.filtersGo w p fs).variable_start_string = w.variable_start_string
    ∧ (Writer.filtersGo w p fs).variable_end_string = w.variable_end_string := by
  induction fs with
  | nil => intro w p; simp [Writer.filtersGo]
  | cons hd rest ih =>
      obtain ⟨f, args⟩ := hd
      intro w p
      cases hf : get_filter_name f with
      | none => simp [Writer.filtersGo, hf, ih]
      | some name =>
          by_cases hc : name ∉ DEFAULT_FILTERS ∧ name ∉ w._filters_warned <;>
            cases p <;>
              simp [Writer.filtersGo, hf, hc, ih, writeFilterArgs_eq,
                write_write]

theorem warn_errs (w : Writer) (m : String) (nd : Option NodeSource) :
    w.error_stream <+: (w.warn m nd).error_stream := by
  simp [List.prefix_append]

theorem filtersGo_errs (fs : List (FilterFunc × List FilterArg)) :
    ∀ (w : Writer) (p : Bool),
      w.error_stream <+: (Writer.filtersGo w p fs).error_stream := by
  induction fs with
  | nil => intro w p; simp [Writer.filtersGo]
  | cons hd rest ih =>
      obtain ⟨f, args⟩ := hd
      intro w p
      cases hf : get_filter_name f with
      | none =>
          simp only [Writer.filtersGo, hf]
          exact List.IsPrefix.trans (warn_errs w _ none) (ih _ p)
      | some name =>
          simp only [Writer.filtersGo, hf]
          refine List.IsPrefix.trans ?_ (ih _ true)
          by_cases hc : name ∉ DEFAULT_FILTERS ∧ name ∉ w._filters_warned <;>
            cases p <;>
              simp [hc, writeFilterArgs_eq, List.prefix_append]

theorem filter_expression_stream (w : Writer) (fe : FilterExpr) :
    (filter_expression w fe).stream = w.stream ++ renderFE w.in_loop fe := by
  simp [filter_expression, Writer.filters, filtersGo_stream,
    variable_handler_eq, renderFE, String.append_assoc]

theorem filter_expression_core (w : Writer) (fe : FilterExpr) :
      (filter_expression w fe)._loop_depth = w._loop_depth
    ∧ (filter_expression w fe).minDepth = w.minDepth
    ∧ (filter_expression w fe).spaceless = w.spaceless
    ∧ (filter_expression w fe).autoescape = w.autoescape
    ∧ (filter_expression w fe).use_jinja_autoescape = w.use_jinja_autoescape
    ∧ (filter_expression w fe).block_start_string = w.block_start_string
    ∧ (filter_expression w fe).block_end_string = w.block_end_string
    ∧ (filter_expression w fe).variable_start_string = w.variable_start_string
    ∧ (filter_expression w fe).variable_end_string = w.variable_end_string := by
  simp [filter_expression, Writer.filters, filtersGo_core, variable_handler_eq]

theorem filter_expression_errs (w : Writer) (fe : FilterExpr) :
    w.error_stream <+: (filter_expression w fe).error_stream := by
  simp only [filter_expression, Writer.filters]
  refine List.IsPrefix.trans ?_ (filtersGo_errs fe.filters _ _)
  simp [variable_handler_eq]

theorem nodeInv_refl (w : Writer) : nodeInv w w :=
  ⟨⟨rfl, rfl, rfl, rfl, rfl, rfl, rfl, rfl⟩, List.prefix_refl _,
    min_le_left _ _⟩

theorem nodeInv_trans {w v u : Writer} (h1 : nodeInv w v)
    (h2 : nodeInv v u) : nodeInv w u := by
  obtain ⟨⟨a1, a2, a3, a4, a5, a6, a7, a8⟩, hp1, hm1⟩ := h1
  obtain ⟨⟨b1, b2, b3, b4, b5, b6, b7, b8⟩, hp2, hm2⟩ := h2
  rw [a1] at hm2
  exact ⟨⟨b1.trans a1, b2.trans a2, b3.trans a3, b4.trans a4, b5.trans a5,
    b6.trans a6, b7.trans a7, b8.trans a8⟩, hp1.trans hp2,
    le_trans (le_min hm1 (min_le_right _ _)) hm2⟩

theorem nodeInv_write (w : Writer) (s : String) : nodeInv w (w.write s) :=
  ⟨⟨rfl, rfl, rfl, rfl, rfl, rfl, rfl, rfl⟩, List.prefix_refl _,
    min_le_left _ _⟩

theorem nodeInv_warn (w : Writer) (m : String) (nd : Option NodeSource) :
    nodeInv w (w.warn m nd) :=
  ⟨⟨rfl, rfl, rfl, rfl, rfl, rfl, rfl, rfl⟩, warn_errs w m nd,
    min_le_left _ _⟩

theorem nodeInv_filter_expression (w : Writer) (fe : FilterExpr) :
    nodeInv w (filter_expression w fe) := by
  obtain ⟨h1, h2, h3, h4, h5, h6, h7, h8, h9⟩ := filter_expression_core w fe
  exact ⟨⟨h1, h3, h4, h5, h6, h7, h8, h9⟩, filter_expression_errs w fe,
    by rw [h2]; exact min_le_left _ _⟩

theorem nodeInv_variable_handler (w : Writer) (v : Variable) :
    nodeInv w (variable_handler w v) := by
  rw [variable_handler_eq]; exact nodeInv_write _ _

theorem nodeInv_start_variable (w : Writer) : nodeInv w w.start_variable := by
  rw [start_variable_eq]; exact nodeInv_write _ _

theorem nodeInv_start_block (w : Writer) : nodeInv w w.start_block := by
  rw [start_block_eq]; exact nodeInv_write _ _

theorem nodeInv_end_block (w : Writer) : nodeInv w w.end_block := by
  rw [end_block_eq]; exact nodeInv_write _ _

theorem nodeInv_end_variable (w : Writer) (safe : Bool) :
    nodeInv w (w.end_variable safe) := by
  rw [end_variable_eq]; exact nodeInv_write _ _

theorem nodeInv_tag (w : Writer) (name : String) : nodeInv w (w.tag name) := by
  rw [tag_eq]; exact nodeInv_write _ _

theorem nodeInv_writeLoopVars (w : Writer) (first : Bool) (vs : List String) :
    nodeInv w (Writer.writeLoopVars w first vs) := by
  rw [writeLoopVars_eq]; exact nodeInv_write _ _

theorem nodeInv_writeCycleVars (w : Writer) (first : Bool) (vs : List Variable) :
    nodeInv w (Writer.writeCycleVars w first vs) := by
  rw [writeCycleVars_eq]; exact nodeInv_write _ _

theorem nodeInv_writeBoolExprs (bs : List (Bool × FilterExpr)) :
    ∀ (w : Writer) (first : Bool),
      nodeInv w (Writer.writeBoolExprs w first bs) := by
  induction bs with
  | nil => intro w first; simp only [Writer.writeBoolExprs]; exact nodeInv_refl w
  | cons hd rest ih =>
      obtain ⟨ifnot, e⟩ := hd
      intro w first
      simp only [Writer.writeBoolExprs]
      refine nodeInv_trans ?_ (ih _ false)
      refine nodeInv_trans ?_ (nodeInv_filter_expression _ e)
      cases first <;> cases ifnot <;>
        simp only [Bool.false_eq_true, if_true, if_false, write_write] <;>
        first
        | exact nodeInv_refl _
        | exact nodeInv_write _ _

theorem cycle_eq (w : Writer) (c : CycleNode) :
    cycle w c
      = if w.in_loop then
          w.write (cycleOpen w c ++ "loop.cycle("
            ++ joinComma w.in_loop true c.raw_cycle_vars ++ ")"
            ++ cycleClose w c)
        else w.warn "Untranslatable free cycle (cycle outside loop)" c.source := by
  cases h : w.in_loop with
  | false => simp [cycle, h]
  | true =>
      cases hv : c.variable_name with
      | none =>
          simp [cycle, h, hv, cycleOpen, cycleClose, start_variable_eq,
            end_variable_eq, writeCycleVars_eq, write_write,
            String.append_assoc]
      | some v =>
          simp [cycle, h, hv, cycleOpen, cycleClose, start_block_eq,
            end_block_eq, writeCycleVars_eq, write_write,
            String.append_assoc]

theorem nodeInv_cycle (w : Writer) (c : CycleNode) : nodeInv w (cycle w c) := by
  rw [cycle_eq]
  by_cases h : w.in_loop = true
  · simp only [if_pos h]; exact nodeInv_write _ _
  · simp only [if_neg h]; exact nodeInv_warn _ _ _

theorem width_ratio_stream (w : Writer) (n : WidthRatioNode) :
    ( width_ratio w n).stream = w.stream ++ widthRatioText w n := by
  simp [ width_ratio, widthRatioText, start_variable_eq, end_variable_eq,
    write_write, filter_expression_stream, filter_expression_core,
    String.append_assoc, escMarker, Writer.in_loop]

theorem width_ratio_core (w : Writer) (n : WidthRatioNode) :
      ( width_ratio w n)._loop_depth = w._loop_depth
    ∧ ( width_ratio w n).minDepth = w.minDepth
    ∧ ( width_ratio w n).spaceless = w.spaceless
    ∧ ( width_ratio w n).autoescape = w.autoescape
    ∧ ( width_ratio w n).use_jinja_autoescape = w.use_jinja_autoescape
    ∧ ( width_ratio w n).block_start_string = w.block_start_string
    ∧ ( width_ratio w n).block_end_string = w.block_end_string
    ∧ ( width_ratio w n).variable_start_string = w.variable_start_string
    ∧ ( width_ratio w n).variable_end_string = w.variable_end_string := by
  simp [ width_ratio, filter_expression_core, start_variable_eq,
    end_variable_eq, write_write]

theorem width_ratio_errs (w : Writer) (n : WidthRatioNode) :
    w.error_stream <+: ( width_ratio w n).error_stream := by
  simp only [ width_ratio, start_variable_eq, end_variable_eq, write_write,
    write_error_stream]
  refine List.IsPrefix.trans ?_ (filter_expression_errs _ _)
  simp only [write_error_stream]
  refine List.IsPrefix.trans ?_ (filter_expression_errs _ _)
  simp only [write_error_stream]
  exact warn_errs _ _ _

theorem nodeInv_width_ratio (w : Writer) (n : WidthRatioNode) :
    nodeInv w ( width_ratio w n) := by
  obtain ⟨h1, h2, h3, h4, h5, h6, h7, h8, h9⟩ := width_ratio_core w n
  exact ⟨⟨h1, h3, h4, h5, h6, h7, h8, h9⟩, width_ratio_errs w n,
    by rw [h2]; exact min_le_left _ _⟩

theorem nodeInv_ite_write (w : Writer) (c : Prop) [Decidable c] (s : String) :
    nodeInv w (if c then w.write s else w) := by
  split
  · exact nodeInv_write _ _
  · exact nodeInv_refl _

theorem msize_pos (n : Node) : 1 ≤ msize n := by
  cases n <;> simp only [msize] <;> omega

theorem msizeL_lstripFirst (ns : List Node) :
    msizeL (lstripFirst ns) = msizeL ns := by
  cases ns with
  | nil => rfl
  | cons n rest => cases n <;> simp [lstripFirst, msizeL, msize]

theorem msizeL_rstripLast (ns : List Node) :
    msizeL (rstripLast ns) = msizeL ns := by
  induction ns with
  | nil => rfl
  | cons n rest ih =>
      cases rest with
      | nil => cases n <;> simp [rstripLast, msizeL, msize]
      | cons m r => simp only [rstripLast, msizeL, ih]

theorem msizeL_stripInitial (ns : List Node) :
    msizeL (stripInitial ns) = msizeL ns := by
  simp [stripInitial, msizeL_rstripLast, msizeL_lstripFirst]

theorem nodeInv_loop_wrap {w wA z : Writer} (hA : nodeInv w wA)
    (hB : nodeInv wA.enter_loop z) : nodeInv w z.leave_loop := by
  obtain ⟨⟨a1, a2, a3, a4, a5, a6, a7, a8⟩, hp1, hm1⟩ := hA
  obtain ⟨⟨b1, b2, b3, b4, b5, b6, b7, b8⟩, hp2, hm2⟩ := hB
  simp only [Writer.enter_loop] at b1 b2 b3 b4 b5 b6 b7 b8 hp2 hm2
  refine ⟨⟨?_, ?_, ?_, ?_, ?_, ?_, ?_, ?_⟩, ?_, ?_⟩ <;>
    simp only [Writer.leave_loop]
  · omega
  · exact b2.trans a2
  · exact b3.trans a3
  · exact b4.trans a4
  · exact b5.trans a5
  · exact b6.trans a6
  · exact b7.trans a7
  · exact b8.trans a8
  · exact hp1.trans hp2
  · omega

theorem nodeInv_spaceless_wrap {w z : Writer} {m : String}
    {src : Option NodeSource}
    (hB : nodeInv (({ w with spaceless := true }).warn m src) z) :
    nodeInv w { z with spaceless := w.spaceless } := by
  obtain ⟨⟨b1, b2, b3, b4, b5, b6, b7, b8⟩, hp2, hm2⟩ := hB
  simp only [Writer.warn] at b1 b2 b3 b4 b5 b6 b7 b8 hp2 hm2
  refine ⟨⟨b1, rfl, b3, b4, b5, b6, b7, b8⟩, ?_, hm2⟩
  exact List.IsPrefix.trans (List.prefix_append _ _) hp2

theorem nodeInv_autoescape_wrap {w z : Writer} {setting : Bool}
    (hB : nodeInv { w with autoescape := setting } z) :
    nodeInv w { z with autoescape := w.autoescape } := by
  obtain ⟨⟨b1, b2, b3, b4, b5, b6, b7, b8⟩, hp2, hm2⟩ := hB
  exact ⟨⟨b1, b2, rfl, b4, b5, b6, b7, b8⟩, hp2, hm2⟩

theorem inv_aux : ∀ k : Nat,
    (∀ n : Node, msize n ≤ k → ∀ w : Writer, nodeInv w (Writer.node w n))
    ∧ (∀ ns : List Node, msizeL ns ≤ k → ∀ w : Writer,
        nodeInv w (Writer.body w ns)) := by
  intro k
  induction k with
  | zero =>
      constructor
      · intro n hn
        have := msize_pos n
        omega
      · intro ns hns w
        cases ns with
        | nil => simp only [Writer.body]; exact nodeInv_refl w
        | cons n rest =>
            simp only [msizeL] at hns
            have := msize_pos n
            omega
  | succ k ih =>
      obtain ⟨ihn, ihb⟩ := ih
      constructor
      · intro n hn w
        cases n with
        | text s => simp only [Writer.node]; exact nodeInv_write w s
        | var v => simp only [Writer.node]; exact nodeInv_variable_handler w v
        | variableNode fe src =>
            simp only [Writer.node]
            refine nodeInv_trans ?_ (nodeInv_end_variable _ false)
            refine nodeInv_trans (nodeInv_start_variable w) ?_
            split
            · exact nodeInv_write _ _
            · exact nodeInv_filter_expression _ _
        | filterExpressionNode fe =>
            simp only [Writer.node]; exact nodeInv_filter_expression w fe
        | commentNode => simp only [Writer.node]; exact nodeInv_refl w
        | forNode lv seq rev l =>
            simp only [Writer.node]
            refine nodeInv_trans ?_ (nodeInv_tag _ "endfor")
            refine nodeInv_loop_wrap ?_
              (ihb l (by simp only [msize] at hn; omega) _)
            refine nodeInv_trans (nodeInv_start_block w) ?_
            refine nodeInv_trans (nodeInv_write _ "for ") ?_
            refine nodeInv_trans (nodeInv_writeLoopVars _ true lv) ?_
            refine nodeInv_trans (nodeInv_write _ " in ") ?_
            refine nodeInv_trans (nodeInv_ite_write _ (rev = true) "(") ?_
            refine nodeInv_trans (nodeInv_filter_expression _ seq) ?_
            refine nodeInv_trans (nodeInv_ite_write _ (rev = true) ")|reverse") ?_
            exact nodeInv_end_block _
        | ifNode lt bs nt nf =>
            simp only [Writer.node]
            refine nodeInv_trans ?_ (nodeInv_tag _ "endif")
            have hB : nodeInv w
                (Writer.body
                  ((((w.start_block).write "if ").writeBoolExprs true
                      bs).end_block) nt) := by
              refine nodeInv_trans (nodeInv_start_block w) ?_
              refine nodeInv_trans (nodeInv_write _ "if ") ?_
              refine nodeInv_trans (nodeInv_writeBoolExprs bs _ true) ?_
              refine nodeInv_trans (nodeInv_end_block _) ?_
              exact ihb nt (by simp only [msize] at hn; omega) _
            split
            · exact hB
            · refine nodeInv_trans hB ?_
              refine nodeInv_trans (nodeInv_tag _ "else") ?_
              exact ihb nf (by simp only [msize] at hn; omega) _
        | cycleNode c => simp only [Writer.node]; exact nodeInv_cycle w c
        | spacelessNode ns src =>
            simp only [Writer.node]
            exact nodeInv_spaceless_wrap
              (ihb (stripInitial ns)
                (by simp only [msize] at hn; rw [msizeL_stripInitial]; omega) _)
        | autoescapeNode setting ns =>
            simp only [Writer.node]
            exact nodeInv_autoescape_wrap
              (ihb ns (by simp only [msize] at hn; omega) _)
        | widthRatioNode d =>
            simp only [Writer.node]; exact nodeInv_width_ratio w d
        | unknown moduleName className src =>
            simp only [Writer.node]; exact nodeInv_warn _ _ _
      · intro ns hns w
        cases ns with
        | nil => simp only [Writer.body]; exact nodeInv_refl w
        | cons n rest =>
            simp only [Writer.body]
            simp only [msizeL] at hns
            exact nodeInv_trans (ihn n (by omega) w)
              (ihb rest (by omega) _)

theorem node_inv (n : Node) (w : Writer) : nodeInv w (Writer.node w n) :=
  (inv_aux (msize n)).1 n le_rfl w

theorem body_inv (ns : List Node) (w : Writer) :
    nodeInv w (Writer.body w ns) :=
  (inv_aux (msizeL ns)).2 ns le_rfl w

theorem lstripFirst_cons (a : Node) (l : List Node) :
    lstripFirst (a :: l) = lstripNode a :: l := by
  cases a <;> simp [lstripFirst, lstripNode]

theorem rstripLast_append_last (l : List Node) (b : Node) :
    rstripLast (l ++ [b]) = l ++ [rstripNode b] := by
  induction l with
  | nil => cases b <;> simp [rstripLast, rstripNode]
  | cons n r ih =>
      cases hr : r ++ [b] with
      | nil => simp at hr
      | cons m s =>
          simp only [List.cons_append, rstripLast, hr]
          rw [← hr, ih]

/-- Claim C1 (code bug): with python operator precedence the source
condition of translate_variable_name reads (in_loop and the name equals
forloop) or (the name starts with the dotted prefix), so even when the
loop-depth counter is zero a dotted loop-metadata reference has its
first 3 characters stripped: at depth 0 the name forloop.counter is
written as loop.counter instead of unmodified, contradicting the
claim. -/
theorem translate_variable_name_depth0_strips :
    writer0._loop_depth = 0
    ∧ writer0.translate_variable_name "forloop.counter" = "loop.counter" :=
  ⟨rfl, rfl⟩

/-- Claim C2 (code bug): the join connective of the if handler is
computed from the truthiness of the constant class attribute
LinkTypes.or_, never from the link type of the node being translated, so
an if node whose sub-expressions are conjoined (link type and_) still
renders joined with or: two positive conditions x and y under link type
and_ render as if x or y. -/
theorem if_condition_ignores_link_type :
    (Writer.node writer0
        (Node.ifNode LinkType.and_
          [(false, ⟨⟨"x", none⟩, []⟩), (false, ⟨⟨"y", none⟩, []⟩)]
          [] [])).stream
      = "\x7b% if x or y %\x7d\x7b% endif %\x7d" := by
  simp only [Writer.node, Writer.body]
  rfl

/-- Claim C3: end_variable writes the escape-filter marker exactly when
always_safe is false, the autoescape flag is true and the
use_jinja_autoescape flag is false; in the other boolean combinations no
marker is written, and in every case the padding and the closing
variable delimiter follow. -/
theorem end_variable_claim (w : Writer) (always_safe : Bool) :
    (w.end_variable always_safe).stream
      = w.stream
        ++ (if always_safe = false ∧ w.autoescape = true
              ∧ w.use_jinja_autoescape = false then "|e" else "")
        ++ (if w.spaceless then " -" else " ")
        ++ w.variable_end_string := by
  rw [end_variable_eq, write_stream]
  cases always_safe <;> cases h1 : w.autoescape <;>
    cases h2 : w.use_jinja_autoescape <;> cases h3 : w.spaceless <;>
      simp [escMarker, prePad, h1, h2, h3, String.append_assoc]

/-- Claim C4: translating a cycle node with the loop-depth counter at
zero writes one warning to the error stream and nothing to the output
stream; with the counter positive it writes the loop.cycle call whose
arguments are the raw cycle variables in their original order, wrapped
in a set block when the node binds a variable name and in variable
delimiters otherwise. -/
theorem cycle_claim (w : Writer) (c : CycleNode) :
    ((cycle w c).stream
        = if w.in_loop then
            w.stream ++ cycleOpen w c ++ "loop.cycle("
              ++ joinComma w.in_loop true c.raw_cycle_vars ++ ")"
              ++ cycleClose w c
          else w.stream)
    ∧ ((cycle w c).error_stream
        = if w.in_loop then w.error_stream
          else w.error_stream
            ++ [warnLine c.source
                "Untranslatable free cycle (cycle outside loop)"]) := by
  rw [cycle_eq]
  by_cases h : w.in_loop = true <;>
    simp [h, String.append_assoc]

/-- Claim C5: dispatching a node whose exact runtime type has no
registered handler writes nothing to the output stream, emits exactly
one warning naming the module and class of the node (prefixed with the file
name and line number when the node carries source metadata), and never
raises (Writer.node is a total function); the handler scan compares
types by identity only, so a subclass of a registered type, having a
distinct type identity, finds no handler. -/
theorem unknown_node_claim (w : Writer) (moduleName className : String)
    (src : Option NodeSource) :
    ((Writer.node w (Node.unknown moduleName className src)).stream
        = w.stream)
    ∧ ((Writer.node w (Node.unknown moduleName className src)).error_stream
        = w.error_stream ++ [warnLine src ("Untranslatable node "
            ++ moduleName ++ "." ++ className ++ " found")])
    ∧ (∀ sub reg : PyType, sub.parent = some reg.id → sub.id ≠ reg.id →
        findHandler [reg] sub = none) := by
  refine ⟨by simp [Writer.node], by simp [Writer.node], ?_⟩
  intro sub reg _ hne
  have hb : (sub.id == reg.id) = false := beq_eq_false_iff_ne.mpr hne
  simp [findHandler, typeIs, List.find?, hb]

theorem unknown_node_claim_witness :
    (Writer.node writer0 (Node.unknown "django.templatetags.mytags" "MyNode"
        (some ⟨Origin.fromLoader "base.html" "a\r\nb\nc", (4, 0)⟩))).error_stream
      = ["[base.html:2] Untranslatable node django.templatetags.mytags.MyNode found"]
    ∧ findHandler [⟨1, none⟩] ⟨2, some 1⟩ = none :=
  ⟨by
    rw [(unknown_node_claim writer0 "django.templatetags.mytags" "MyNode"
      (some ⟨Origin.fromLoader "base.html" "a\r\nb\nc", (4, 0)⟩)).2.1]
    rfl,
   (unknown_node_claim writer0 "m" "c" none).2.2 ⟨2, some 1⟩ ⟨1, none⟩ rfl
     (by decide)⟩

/-- Claim C6: for any node and any writer state with non-negative loop
depth and non-negative recorded minimum depth, translating the node
restores the loop-depth counter to its value before the call, and the
counter never went negative during the translation (the recorded
minimum stays non-negative); in particular a loop node dispatched at
top level, depth zero, leaves the counter at zero. -/
theorem loop_depth_claim (n : Node) (w : Writer)
    (h1 : 0 ≤ w._loop_depth) (h2 : 0 ≤ w.minDepth) :
    (Writer.node w n)._loop_depth = w._loop_depth
    ∧ 0 ≤ (Writer.node w n).minDepth := by
  obtain ⟨⟨d, _, _, _, _, _, _, _⟩, _, hm⟩ := node_inv n w
  exact ⟨d, le_trans (le_min h2 h1) hm⟩

theorem loop_depth_claim_witness :
    (Writer.node writer0 (Node.forNode ["x"] ⟨⟨"items", none⟩, []⟩ false
        [Node.text "hi",
         Node.cycleNode ⟨[⟨"a", none⟩], none, none⟩]))._loop_depth
      = writer0._loop_depth
    ∧ 0 ≤ (Writer.node writer0 (Node.forNode ["x"] ⟨⟨"items", none⟩, []⟩ false
        [Node.text "hi",
         Node.cycleNode ⟨[⟨"a", none⟩], none, none⟩])).minDepth :=
  loop_depth_claim _ writer0 (by decide) (by decide)

/-- Claim C7: translating a spaceless node always emits the warning,
restores the spaceless flag to its prior value, and translates the body
with exactly the one-shot initial stripping applied: the empty body is
unchanged; a one-element body has its sole element left-stripped then
right-stripped when it is a text node and is untouched otherwise; a
longer body has only its first element left-stripped (when text) and
its last element right-stripped (when text), every interior element
being untouched. -/
theorem spaceless_claim (w : Writer) (ns : List Node)
    (src : Option NodeSource) :
    ((Writer.node w (Node.spacelessNode ns src)).spaceless = w.spaceless)
    ∧ (∃ rest, (Writer.node w (Node.spacelessNode ns src)).error_stream
        = w.error_stream
          ++ warnLine src "entering spaceless mode with different semantics"
            :: rest)
    ∧ ((Writer.node w (Node.spacelessNode ns src)).stream
        = (Writer.body ({ w with spaceless := true }.warn
            "entering spaceless mode with different semantics" src)
            (stripInitial ns)).stream)
    ∧ stripInitial [] = ([] : List Node)
    ∧ (∀ a : Node, stripInitial [a] = [rstripNode (lstripNode a)])
    ∧ (∀ (a : Node) (mid : List Node) (b : Node),
        stripInitial (a :: (mid ++ [b]))
          = lstripNode a :: (mid ++ [rstripNode b])) := by
  refine ⟨by simp [Writer.node], ?_, by simp [Writer.node], rfl, ?_, ?_⟩
  · obtain ⟨t, ht⟩ := (body_inv (stripInitial ns)
      ({ w with spaceless := true }.warn
        "entering spaceless mode with different semantics" src)).2.1
    refine ⟨t, ?_⟩
    simp only [Writer.node]
    rw [← ht]
    simp [Writer.warn]
  · intro a
    cases a <;>
      simp [stripInitial, lstripFirst, rstripLast, lstripNode, rstripNode]
  · intro a mid b
    rw [stripInitial, lstripFirst_cons, ← List.cons_append,
      rstripLast_append_last, List.cons_append]

/-- Claim C8: a filter that resolves to a name outside the allow-list
triggers the probably-does-not-exist warning exactly once across any
number N of calls referencing it (the name is recorded in the
per-writer warned set on the first call), while the filter reference
itself is written to the output stream on every one of the N calls. -/
theorem filters_dedup_claim (w : Writer) (f : FilterFunc) (name : String)
    (N : Nat)
    (h1 : get_filter_name f = some name)
    (h2 : name ∉ DEFAULT_FILTERS)
    (h3 : name ∉ w._filters_warned)
    (h4 : 1 ≤ N) :
    ((applyCalls f N w).error_stream).count (probablyMsg name)
      = (w.error_stream).count (probablyMsg name) + 1
    ∧ (applyCalls f N w).stream = w.stream ++ repeatStr N ("|" ++ name) := by
  have hfirst : callFilter f w
      = { w with stream := w.stream ++ ("|" ++ name),
                 error_stream := w.error_stream ++ [probablyMsg name],
                 _filters_warned := w._filters_warned ++ [name] } := by
    simp [callFilter, Writer.filters, Writer.filtersGo, h1,
      if_pos (And.intro h2 h3), Writer.writeFilterArgs, Writer.warn,
      Writer.write, warnLine, probablyMsg, String.append_assoc]
  have hwarned : ∀ (k : Nat) (v : Writer), get_filter_name f = some name →
      name ∈ v._filters_warned →
      applyCalls f k v = { v with stream := v.stream ++ repeatStr k ("|" ++ name) } := by
    intro k
    induction k with
    | zero => intro v _ _; simp [applyCalls, repeatStr]
    | succ k ih =>
        intro v hv hm
        have hstep : callFilter f v = { v with stream := v.stream ++ ("|" ++ name) } := by
          have hneg : ¬(name ∉ DEFAULT_FILTERS ∧ name ∉ v._filters_warned) := by
            intro hcon
            exact hcon.2 hm
          simp [callFilter, Writer.filters, Writer.filtersGo, hv,
            if_neg hneg, Writer.writeFilterArgs, Writer.write,
            String.append_assoc]
        calc applyCalls f (k + 1) v = applyCalls f k (callFilter f v) := rfl
          _ = _ := by
              rw [hstep, ih _ hv (by simpa using hm)]
              simp [repeatStr, String.append_assoc]
  cases N with
  | zero => omega
  | succ k =>
      have hmem : name ∈ (w._filters_warned ++ [name]) := by simp
      have : applyCalls f (k + 1) w
          = applyCalls f k (callFilter f w) := rfl
      rw [this, hfirst, hwarned k _ h1 (by simpa using hmem)]
      constructor
      · simp [List.count_append, probablyMsg]
      · simp [repeatStr, String.append_assoc]

theorem filters_dedup_claim_witness :
    ((applyCalls ⟨some "frobnicate"⟩ 2 writer0).error_stream).count
        (probablyMsg "frobnicate")
      = (writer0.error_stream).count (probablyMsg "frobnicate") + 1
    ∧ (applyCalls ⟨some "frobnicate"⟩ 2 writer0).stream
      = writer0.stream ++ repeatStr 2 ("|" ++ "frobnicate") :=
  filters_dedup_claim writer0 ⟨some "frobnicate"⟩ "frobnicate" 2 rfl
    (by decide) (by decide) (by decide)

/-- Claim C9: a variable output node whose filter expression is exactly
the reference block.super with an empty filter list renders as the call
super() inside variable delimiters (subject to the usual end_variable
escape-marker rule); when the reference carries any filter, the node is
rendered by the ordinary filter-expression translation between the same
delimiters. -/
theorem block_super_claim (w : Writer) (fe : FilterExpr)
    (src : Option NodeSource) :
    (fe.var.var = "block.super" ∧ fe.filters = [] →
      (Writer.node w (Node.variableNode fe src)).stream
        = w.stream ++ w.variable_start_string ++ postPad w.spaceless
          ++ "super()" ++ escMarker false w.autoescape w.use_jinja_autoescape
          ++ prePad w.spaceless ++ w.variable_end_string)
    ∧ (fe.filters ≠ [] →
      Writer.node w (Node.variableNode fe src)
        = Writer.end_variable
            (filter_expression (Writer.start_variable w) fe) false) := by
  constructor
  · rintro ⟨h, hf⟩
    simp [Writer.node, h, hf, start_variable_eq, end_variable_eq,
      write_write, String.append_assoc]
  · intro h2
    have hne : fe.filters.isEmpty = false := by
      simpa [List.isEmpty_iff] using h2
    simp [Writer.node, hne]

theorem block_super_claim_witness :
    ((Writer.node writer0
        (Node.variableNode ⟨⟨"block.super", none⟩, []⟩ none)).stream
        = writer0.stream ++ writer0.variable_start_string
          ++ postPad writer0.spaceless ++ "super()"
          ++ escMarker false writer0.autoescape writer0.use_jinja_autoescape
          ++ prePad writer0.spaceless ++ writer0.variable_end_string)
    ∧ (Writer.node writer0
        (Node.variableNode ⟨⟨"block.super", none⟩, [(⟨some "upper"⟩, [])]⟩ none)
        = Writer.end_variable
            (filter_expression (Writer.start_variable writer0)
              ⟨⟨"block.super", none⟩, [(⟨some "upper"⟩, [])]⟩) false) :=
  ⟨(block_super_claim writer0 ⟨⟨"block.super", none⟩, []⟩ none).1 ⟨rfl, rfl⟩,
   (block_super_claim writer0 ⟨⟨"block.super", none⟩, [(⟨some "upper"⟩, [])]⟩
      none).2 (by decide)⟩

/-- Claim C10: the width-ratio handler closes its variable tag with
always_safe set: the emitted text (widthRatioText) carries no
escape-filter marker between the formula and the closing padding and
delimiter, and the handler output is identical under every setting of
the autoescape and use_jinja_autoescape flags. -/
theorem width_ratio_always_safe_claim (w : Writer) (n : WidthRatioNode)
    (a b : Bool) :
    ( width_ratio (setFlags w a b) n).stream = ( width_ratio w n).stream
    ∧ ( width_ratio w n).stream = w.stream ++ widthRatioText w n := by
  constructor
  · rw [width_ratio_stream, width_ratio_stream]
    simp [setFlags, widthRatioText, Writer.in_loop]
  · exact width_ratio_stream w n

end D2J
